import Mathlib

/-!
Shallow embedding of `crates/ra_ide/src/completion/presentation.rs`: the
completion-item synthesis and heuristic ranking engine of rust-analyzer.

Strings are modelled by Lean `String` (sequences of characters; the Rust
code only ever splits at character boundaries, so byte indices and char
indices describe the same positions).  Data produced by external
collaborators (the HIR database, the syntax tree, the display formatter)
is modelled as fields carried by the candidate descriptors: a `hir::Type`
is its display text plus the `is_unknown` / `is_fn` query results, a
`hir::Field` carries its resolved name and signature type, and so on.
The per-request accumulator (`Completions`) is an append-only list; each
`add_*` operation below returns the item it would append (`none` when the
source emits nothing for that candidate).
-/

/-- `CompletionScore` from `ra_ide`: the three-valued relevance score
(absent = no score). -/
inductive CompletionScore
  | TypeMatch
  | TypeAndNameMatch
deriving DecidableEq

/-- `CompletionItemKind` of the completion item being built. -/
inductive CompletionItemKind
  | Field
  | Module
  | Struct
  | Enum
  | EnumVariant
  | Const
  | Static
  | Trait
  | TypeAlias
  | BuiltinType
  | TypeParam
  | Binding
  | Macro
  | Function
  | Method
  | Unknown
deriving DecidableEq

/-- A `hir::Type` as this module observes it: its display text
(`ty.display(db).to_string()`) and the results of the two queries the
rendering code performs on it. -/
structure HirType where
  display : String
  is_unknown : Bool
  is_fn : Bool
deriving DecidableEq

/-- A `hir::Field` (struct or enum-variant field) as observed here:
`name(db)`, `signature_ty(db)`, `docs(db)` and the deprecation attribute. -/
structure HirField where
  name : String
  signature_ty : HirType
  docs : Option String
  is_deprecated : Bool
deriving DecidableEq

/-- `ActiveParameter` of the completion context: the call parameter the
cursor currently fills, with its type already rendered to text. -/
structure ActiveParameter where
  name : String
  ty : String
deriving DecidableEq

/-- The record-field initializer the cursor completes
(`ctx.record_field_syntax`), together with the outcome of
`ctx.sema.resolve_record_field` on it (`none` when resolution fails). -/
structure RecordFieldSite where
  resolved : Option HirField
deriving DecidableEq

/-- `CompletionConfig`: the recognized options.  The snippet capability
token is opaque, so it is modelled by `Option Unit`. -/
structure CompletionConfig where
  add_call_parenthesis : Bool
  add_call_argument_snippets : Bool
  snippet_cap : Option Unit
deriving DecidableEq

/-- `CompletionContext`: the cursor-site snapshot consumed by this
module.  `use_item_syntax'` models the `use_item_syntax` field (the
`use`-item the reference sits in, when any); `record_field_syntax'`
models `record_field_syntax` together with its resolution.  The
`source_range` and database handle are pass-through collaborator data and
are not observed by any rendered field modelled here. -/
structure CompletionContext where
  config : CompletionConfig
  record_field_syntax' : Option RecordFieldSite := none
  active_parameter : Option ActiveParameter := none
  expected_type : Option HirType := none
  use_item_syntax' : Option String := none
  is_call : Bool := false
  is_macro_call : Bool := false
  is_path_type : Bool := false
  has_type_args : Bool := false
deriving DecidableEq

/-- Insertion text of an item: plain text (`insert_text`) or a snippet
(`insert_snippet`, only built when the snippet capability is present). -/
inductive InsertText
  | plainText (text : String)
  | snippet (text : String)
deriving DecidableEq

/-- The completion-item builder (`completion_item::Builder`): the fields
the rendering code sets.  `insert = none` means no insertion text was
set, in which case the built item falls back to inserting the label. -/
structure Builder where
  label : String
  kind : Option CompletionItemKind := none
  insert : Option InsertText := none
  detail : Option String := none
  documentation : Option String := none
  deprecated : Bool := false
  lookup : Option String := none
  score : Option CompletionScore := none
  trigger_call_info : Bool := false
deriving DecidableEq

/-- `compute_score` from `presentation.rs`: determine the active
expectation (record-field initializer first, else active call parameter),
then compare display strings. -/
def compute_score (ctx : CompletionContext) (ty : HirType) (name : String) :
    Option CompletionScore :=
  let tyText := ty.display
  let active : Option (String × String) :=
    match ctx.record_field_syntax' with
    | some record_field =>
      match record_field.resolved with
      | some struct_field => some (struct_field.name, struct_field.signature_ty.display)
      | none => none
    | none =>
      match ctx.active_parameter with
      | some active_parameter => some (active_parameter.name, active_parameter.ty)
      | none => none
  match active with
  | none => none
  | some (active_name, active_type) =>
    if active_type ≠ tyText then none
    else if active_name = name then some CompletionScore.TypeAndNameMatch
    else some CompletionScore.TypeMatch

/-- `Params`: the parameter-list descriptor handed to the
call-parenthesis inserter. -/
inductive Params
  | Named (xs : List String)
  | Anonymous (len : Nat)
deriving DecidableEq

/-- `Params::len`. -/
def Params.len : Params → Nat
  | Params.Named xs => xs.length
  | Params.Anonymous len => len

/-- `Params::is_empty`. -/
def Params.is_empty (p : Params) : Bool := p.len == 0

/-- One `${index:param_name}` placeholder of an argument snippet
(`format!("${{{}:{}}}", index + 1, param_name)` writes the braces which
Lean spells `\x7b` and `\x7d`). -/
def param_placeholder (index : Nat) (param_name : String) : String :=
  "$\x7b" ++ toString index ++ ":" ++ param_name ++ "\x7d"

/-- `Builder::add_call_parens`: conditionally append call syntax to the
builder.  The four early returns mirror the source's suppression checks
in order; the synthesis part computes `(snippet, label)` and applies
`lookup_by(name).label(label).insert_snippet(cap, snippet)`. -/
def Builder.add_call_parens (b : Builder) (ctx : CompletionContext)
    (name : String) (params : Params) : Builder :=
  if !ctx.config.add_call_parenthesis then b
  else if ctx.use_item_syntax'.isSome || ctx.is_call then b
  else if (match ctx.expected_type with
           | some ty => ty.is_fn
           | none => false) then b
  else
    match ctx.config.snippet_cap with
    | none => b
    | some _cap =>
      let step : String × String × Builder :=
        if params.is_empty then
          (name ++ "()$0", name ++ "()", b)
        else
          let b := { b with trigger_call_info := true }
          let snippet :=
            match ctx.config.add_call_argument_snippets, params with
            | true, Params.Named ps =>
              let function_params_snippet :=
                String.intercalate ", "
                  (ps.enum.map (fun ip => param_placeholder (ip.1 + 1) ip.2))
              name ++ "(" ++ function_params_snippet ++ ")$0"
            | _, _ => name ++ "($0)"
          (snippet, name ++ "(…)", b)
      { step.2.2 with
        lookup := some name
        label := step.2.1
        insert := some (InsertText.snippet step.1) }

/-- Rust `char::is_whitespace`: the Unicode `White_Space` property. -/
def rust_is_whitespace (c : Char) : Bool :=
  let n := c.toNat
  (9 ≤ n && n ≤ 13) || n == 32 || n == 0x85 || n == 0xA0 || n == 0x1680 ||
  (0x2000 ≤ n && n ≤ 0x200A) || n == 0x2028 || n == 0x2029 || n == 0x202F ||
  n == 0x205F || n == 0x3000

/-- Rust `char::is_ascii_alphanumeric`. -/
def rust_is_ascii_alphanumeric (c : Char) : Bool :=
  let n := c.toNat
  (0x61 ≤ n && n ≤ 0x7A) || (0x41 ≤ n && n ≤ 0x5A) || (0x30 ≤ n && n ≤ 0x39)

/-- Worker for `str::match_indices`: scan `hay` left to right from
position `i`; `skip > 0` means the scanner still stands inside the
previous (non-overlapping) match and must not test this position.  An
empty needle matches at every position, including the end of the
haystack. -/
def match_indices_go (needle : List Char) : List Char → Nat → Nat → List Nat
  | [], i, skip => if needle.isEmpty && skip == 0 then [i] else []
  | c :: rest, i, skip =>
    if skip != 0 then match_indices_go needle rest (i + 1) (skip - 1)
    else if needle.isEmpty then i :: match_indices_go needle rest (i + 1) 0
    else if needle.isPrefixOf (c :: rest) then
      i :: match_indices_go needle rest (i + 1) (needle.length - 1)
    else match_indices_go needle rest (i + 1) 0

/-- `str::match_indices(pattern)`: the positions of the disjoint,
leftmost-first occurrences of `needle` in `hay`. -/
def match_indices (needle hay : List Char) : List Nat :=
  match_indices_go needle hay 0 0

/-- The word-boundary acceptance test of `guess_macro_braces` for the
occurrence at position `idx`: the occurrence is immediately followed by
`!` and not immediately preceded by `_` or an ASCII-alphanumeric
character. -/
def occurrence_accepted (needle hay : List Char) (idx : Nat) : Bool :=
  let before := hay.take idx
  let after := hay.drop (idx + needle.length)
  (after.head? == some '!') &&
  !(match before.getLast? with
    | some c => c == '_' || rust_is_ascii_alphanumeric c
    | none => false)

/-- The vote cast by the occurrence at position `idx`: the first
non-whitespace character after the `!` picks the bucket (`0` = curly,
`1` = square, `2` = round); any other character, or none, casts no
vote. -/
def occurrence_vote (needle hay : List Char) (idx : Nat) : Option Nat :=
  if occurrence_accepted needle hay idx then
    let after := hay.drop (idx + needle.length)
    match (after.drop 1).find? (fun c => !rust_is_whitespace c) with
    | some c =>
      if c.toNat == 0x7B then some 0
      else if c.toNat == 0x5B then some 1
      else if c.toNat == 0x28 then some 2
      else none
    | none => none
  else none

/-- The vote tally of `guess_macro_braces`' scanning loop
(`let mut votes = [0, 0, 0]; for (idx, s) in docs.match_indices(...)`),
as the triple (curly, square, round). -/
def macro_brace_votes (macro_name docs : String) : Nat × Nat × Nat :=
  let needle := macro_name.toList
  let hay := docs.toList
  (match_indices needle hay).foldl
    (fun votes idx =>
      match occurrence_vote needle hay idx with
      | some 0 => (votes.1 + 1, votes.2.1, votes.2.2)
      | some 1 => (votes.1, votes.2.1 + 1, votes.2.2)
      | some 2 => (votes.1, votes.2.1, votes.2.2 + 1)
      | _ => votes)
    (0, 0, 0)

/-- Rust `Iterator::max_by_key` over the zipped vote/brace list: of
several equally maximal keys the LAST element is returned. -/
def max_by_key_last (xs : List (Nat × (String × String))) :
    Option (Nat × (String × String)) :=
  xs.foldl
    (fun acc x =>
      match acc with
      | none => some x
      | some a => if a.1 ≤ x.1 then some x else some a)
    none

/-- `guess_macro_braces` from `presentation.rs`: tally brace-style votes
from the documentation, then take the vote maximum, preferring the last
style on ties; the curly open token carries a leading space. -/
def guess_macro_braces (macro_name docs : String) : String × String :=
  let votes := macro_brace_votes macro_name docs
  match max_by_key_last
      [(votes.1, (" \x7b", "\x7d")), (votes.2.1, ("[", "]")),
       (votes.2.2, ("(", ")"))] with
  | some picked => picked.2
  | none => ("(", ")")

/-- `Completions::add_field`. -/
def add_field (ctx : CompletionContext) (field : HirField) (ty : HirType) :
    Builder :=
  let completion_item : Builder :=
    { label := field.name
      kind := some CompletionItemKind.Field
      detail := some ty.display
      documentation := field.docs
      deprecated := field.is_deprecated }
  match compute_score ctx ty field.name with
  | some score => { completion_item with score := some score }
  | none => completion_item

/-- `Completions::add_tuple_field` (the label is the field index). -/
def add_tuple_field (ctx : CompletionContext) (field : Nat) (ty : HirType) :
    Builder :=
  let _ := ctx
  { label := toString field
    kind := some CompletionItemKind.Field
    detail := some ty.display }

/-- `FunctionSignature` extracted from the function's syntax node:
the parameter names (the receiver's spelling included when present),
whether a receiver parameter exists, and the signature's display text
(`function_signature.to_string()`). -/
structure FunctionSignature where
  parameter_names : List String
  has_self_param : Bool
  display : String
deriving DecidableEq

/-- A `hir::Function` as observed here: `has_self_param(db)`, `name(db)`,
`docs(db)`, the deprecation attribute, and the signature taken from its
syntax node. -/
structure HirFunction where
  name : String
  has_self_param : Bool
  docs : Option String
  is_deprecated : Bool
  signature : FunctionSignature
deriving DecidableEq

/-- Rust `str::trim_start_matches('_')`: drop every leading underscore. -/
def trim_start_underscores (s : String) : String :=
  String.mk (s.toList.dropWhile (fun c => c == '_'))

/-- `Completions::add_function`. -/
def add_function (ctx : CompletionContext) (func : HirFunction)
    (local_name : Option String) : Builder :=
  let name := local_name.getD func.name
  let builder : Builder :=
    { label := name
      kind := some (if func.has_self_param then CompletionItemKind.Method
                    else CompletionItemKind.Function)
      documentation := func.docs
      deprecated := func.is_deprecated
      detail := some func.signature.display }
  let params :=
    ((func.signature.parameter_names.drop
        (if func.signature.has_self_param then 1 else 0)).map
      trim_start_underscores)
  builder.add_call_parens ctx name (Params.Named params)

/-- A `hir::MacroDef` as observed here: `is_proc_macro'` models the
`is_proc_macro()` query (a proc-macro has no retrievable source),
`label_from_source` the `macro_label(&ast_node)` detail text. -/
structure MacroDef where
  is_proc_macro' : Bool
  label_from_source : String
  docs : Option String
  is_deprecated : Bool
deriving DecidableEq

/-- `Completions::add_macro` (`none` = the candidate emits nothing). -/
def add_macro' (ctx : CompletionContext) (name : Option String)
    (mac : MacroDef) : Option Builder :=
  if mac.is_proc_macro' then none
  else
    match name with
    | none => none
    | some name =>
      let docs := mac.docs
      let builder : Builder :=
        { label := name ++ "!"
          kind := some CompletionItemKind.Macro
          documentation := docs
          deprecated := mac.is_deprecated
          detail := some mac.label_from_source }
      let needs_bang := ctx.use_item_syntax'.isNone && !ctx.is_macro_call
      let builder :=
        match ctx.config.snippet_cap with
        | some _cap =>
          if needs_bang then
            let docsText := (docs.getD "")
            let braces := guess_macro_braces name docsText
            { builder with
              insert := some (InsertText.snippet
                (name ++ "!" ++ braces.1 ++ "$0" ++ braces.2))
              label := name ++ "!" ++ braces.1 ++ "…" ++ braces.2 }
          else { builder with insert := some (InsertText.plainText name) }
        | none =>
          if needs_bang then
            { builder with insert := some (InsertText.plainText (name ++ "!")) }
          else { builder with insert := some (InsertText.plainText name) }
      some builder

/-- `Completions::add_const` (`none` when the declaration has no name).
`const_label` is the collaborator-produced detail text. -/
def add_const (ctx : CompletionContext) (src_name : Option String)
    (const_label : String) (docs : Option String) (is_deprecated : Bool) :
    Option Builder :=
  let _ := ctx
  match src_name with
  | none => none
  | some name =>
    some
      { label := name
        kind := some CompletionItemKind.Const
        documentation := docs
        deprecated := is_deprecated
        detail := some const_label }

/-- `hir::StructKind` of an enum variant. -/
inductive StructKind
  | Record
  | Tuple
  | Unit
deriving DecidableEq

/-- A `hir::EnumVariant` as observed here: `name(db)`, `fields(db)`,
`kind(db)`, `docs(db)` and the deprecation attribute. -/
structure EnumVariantDef where
  name : String
  fields : List HirField
  kind : StructKind
  docs : Option String
  is_deprecated : Bool
deriving DecidableEq

/-- `Completions::add_enum_variant_impl`.  A `ModPath` is observed only
through `to_string()`, so `path` carries that text directly. -/
def add_enum_variant_impl (ctx : CompletionContext) (variant : EnumVariantDef)
    (local_name : Option String) (path : Option String) : Builder :=
  let name := local_name.getD variant.name
  let qualified_name :=
    match path with
    | some it => it
    | none => name
  let detail_types := variant.fields.map (fun f => (f.name, f.signature_ty))
  let detail :=
    match variant.kind with
    | StructKind.Tuple | StructKind.Unit =>
      "(" ++ String.intercalate ", "
        (detail_types.map (fun nt => nt.2.display)) ++ ")"
    | StructKind.Record =>
      "\x7b " ++ String.intercalate ", "
        (detail_types.map (fun nt => nt.1 ++ ": " ++ nt.2.display)) ++ " \x7d"
  let res : Builder :=
    { label := qualified_name
      kind := some CompletionItemKind.EnumVariant
      documentation := variant.docs
      deprecated := variant.is_deprecated
      detail := some detail }
  let res := if path.isSome then { res with lookup := some name } else res
  if variant.kind = StructKind.Tuple then
    res.add_call_parens ctx qualified_name
      (Params.Anonymous variant.fields.length)
  else res

/-- `Completions::add_enum_variant`. -/
def add_enum_variant (ctx : CompletionContext) (variant : EnumVariantDef)
    (local_name : Option String) : Builder :=
  add_enum_variant_impl ctx variant local_name none

/-- `Completions::add_qualified_enum_variant`. -/
def add_qualified_enum_variant (ctx : CompletionContext)
    (variant : EnumVariantDef) (path : String) : Builder :=
  add_enum_variant_impl ctx variant none (some path)

/-- The three `hir::Adt` shapes. -/
inductive AdtKind
  | Struct
  | Union
  | Enum
deriving DecidableEq

/-- `hir::ScopeDef` as observed by `add_resolution`: each constructor
carries the data the rendering code reads from it. -/
inductive ScopeDef
  | ModuleDef_Module (docs : Option String)
  | ModuleDef_Function (func : HirFunction)
  | ModuleDef_Adt (adt : AdtKind) (docs : Option String)
      (has_non_default_type_params : Bool)
  | ModuleDef_EnumVariant (variant : EnumVariantDef)
  | ModuleDef_Const (docs : Option String)
  | ModuleDef_Static (docs : Option String)
  | ModuleDef_Trait (docs : Option String)
  | ModuleDef_TypeAlias (docs : Option String)
      (has_non_default_type_params : Bool)
  | ModuleDef_BuiltinType
  | GenericParam
  | Local (ty : HirType)
  | AdtSelfType
  | ImplSelfType
  | MacroDef (mac : MacroDef)
  | Unknown
deriving DecidableEq

/-- `Completions::add_resolution`: dispatch on the resolved candidate.
The `Function`, `EnumVariant` and `MacroDef` cases delegate; the rest
build the item here (detail and score only for locals, the
angle-bracket rewrite for generic types). -/
def add_resolution (ctx : CompletionContext) (local_name : String)
    (resolution : ScopeDef) : Option Builder :=
  match resolution with
  | ScopeDef.ModuleDef_Function func =>
    some (add_function ctx func (some local_name))
  | ScopeDef.ModuleDef_EnumVariant var =>
    some (add_enum_variant ctx var (some local_name))
  | ScopeDef.MacroDef mac => add_macro' ctx (some local_name) mac
  | ScopeDef.Unknown => some { label := local_name }
  | _ =>
    let kind :=
      match resolution with
      | ScopeDef.ModuleDef_Module _ => CompletionItemKind.Module
      | ScopeDef.ModuleDef_Adt AdtKind.Struct _ _ => CompletionItemKind.Struct
      | ScopeDef.ModuleDef_Adt AdtKind.Union _ _ => CompletionItemKind.Struct
      | ScopeDef.ModuleDef_Adt AdtKind.Enum _ _ => CompletionItemKind.Enum
      | ScopeDef.ModuleDef_Const _ => CompletionItemKind.Const
      | ScopeDef.ModuleDef_Static _ => CompletionItemKind.Static
      | ScopeDef.ModuleDef_Trait _ => CompletionItemKind.Trait
      | ScopeDef.ModuleDef_TypeAlias _ _ => CompletionItemKind.TypeAlias
      | ScopeDef.ModuleDef_BuiltinType => CompletionItemKind.BuiltinType
      | ScopeDef.GenericParam => CompletionItemKind.TypeParam
      | ScopeDef.Local _ => CompletionItemKind.Binding
      | ScopeDef.AdtSelfType => CompletionItemKind.TypeParam
      | ScopeDef.ImplSelfType => CompletionItemKind.TypeParam
      | _ => CompletionItemKind.Unknown
    let docs :=
      match resolution with
      | ScopeDef.ModuleDef_Module docs => docs
      | ScopeDef.ModuleDef_Adt _ docs _ => docs
      | ScopeDef.ModuleDef_Const docs => docs
      | ScopeDef.ModuleDef_Static docs => docs
      | ScopeDef.ModuleDef_Trait docs => docs
      | ScopeDef.ModuleDef_TypeAlias docs _ => docs
      | _ => none
    let completion_item : Builder := { label := local_name }
    let completion_item :=
      match resolution with
      | ScopeDef.Local lo =>
        if !lo.is_unknown then
          { completion_item with detail := some lo.display }
        else completion_item
      | _ => completion_item
    let completion_item :=
      match resolution with
      | ScopeDef.Local lo =>
        match compute_score ctx lo local_name with
        | some score => { completion_item with score := some score }
        | none => completion_item
      | _ => completion_item
    let completion_item :=
      if ctx.is_path_type && !ctx.has_type_args &&
          ctx.config.add_call_parenthesis then
        match ctx.config.snippet_cap with
        | some _cap =>
          let has_non_default_type_params :=
            match resolution with
            | ScopeDef.ModuleDef_Adt _ _ h => h
            | ScopeDef.ModuleDef_TypeAlias _ h => h
            | _ => false
          if has_non_default_type_params then
            { completion_item with
              lookup := some local_name
              label := local_name ++ "<…>"
              insert := some (InsertText.snippet (local_name ++ "<$0>")) }
          else completion_item
        | none => completion_item
      else completion_item
    some { completion_item with kind := some kind, documentation := docs }

/-! ## Claim-side models and fixtures

The definitions below are written from the specification's words (not
from the source); the theorems compare them with the embedded code. -/

/-- Modelled from the spec: the *active expectation* as the spec words
it — the field being initialized (name and declared type, rendered)
first, else the active call parameter, else nothing. -/
def active_expectation_claim (ctx : CompletionContext) :
    Option (String × String) :=
  match ctx.record_field_syntax' with
  | some site => site.resolved.map (fun f => (f.name, f.signature_ty.display))
  | none =>
    match ctx.active_parameter with
    | some ap => some (ap.name, ap.ty)
    | none => none

/-- Modelled from the spec: the score computation as the spec words it —
absent without an expectation; absent when the display strings differ;
`TypeAndNameMatch` when they match and the names are equal, else
`TypeMatch`. -/
def compute_score_claim (ctx : CompletionContext) (ty : HirType)
    (name : String) : Option CompletionScore :=
  match active_expectation_claim ctx with
  | none => none
  | some (expected_name, expected_type) =>
    if ty.display = expected_type then
      (if name = expected_name then some CompletionScore.TypeAndNameMatch
       else some CompletionScore.TypeMatch)
    else none

/-- Modelled from the spec: the suppression policy of the
call-parenthesis inserter — configuration off, OR import/already-typed
call site, OR the expected type is a function type, OR no snippet
capability.  No condition reads the parameter list. -/
def call_parens_suppressed (ctx : CompletionContext) : Bool :=
  !ctx.config.add_call_parenthesis ||
  (ctx.use_item_syntax'.isSome || ctx.is_call) ||
  (match ctx.expected_type with
   | some ty => ty.is_fn
   | none => false) ||
  ctx.config.snippet_cap.isNone

/-- Modelled from the spec: the brace-style vote tally as the spec words
it — one vote per occurrence of the macro name that is followed by `!`
and not preceded by an identifier character, bucketed by the first
non-whitespace character after the `!`. -/
def macro_brace_votes_claim (macro_name docs : String) : Nat × Nat × Nat :=
  let needle := macro_name.toList
  let hay := docs.toList
  let idxs := match_indices needle hay
  (idxs.countP (fun i => occurrence_vote needle hay i == some 0),
   idxs.countP (fun i => occurrence_vote needle hay i == some 1),
   idxs.countP (fun i => occurrence_vote needle hay i == some 2))

/-- Modelled from the spec: the style selection as the spec words it —
the highest vote count wins and ties prefer the later style in the
order curly → square → round; the curly open token carries a leading
space, the others do not. -/
def select_brace_style_claim (votes : Nat × Nat × Nat) : String × String :=
  if votes.2.2 ≥ votes.1 ∧ votes.2.2 ≥ votes.2.1 then ("(", ")")
  else if votes.2.1 ≥ votes.1 then ("[", "]")
  else (" \x7b", "\x7d")

/-- Modelled from the spec: the parameter names the spec expects the
call-parenthesis inserter to receive — the receiver excluded, leading
underscores stripped. -/
def stripped_param_names_claim (sig : FunctionSignature) : List String :=
  (if sig.has_self_param then sig.parameter_names.drop 1
   else sig.parameter_names).map trim_start_underscores

/-- Fixture: a context whose configuration enables parenthesis insertion
and argument snippets and whose client has the snippet capability; no
call/import/expectation markers. -/
def ctx_args_on : CompletionContext :=
  { config := { add_call_parenthesis := true
                add_call_argument_snippets := true
                snippet_cap := some () } }

/-- Fixture: as `ctx_args_on` but with argument snippets disabled. -/
def ctx_args_off : CompletionContext :=
  { config := { add_call_parenthesis := true
                add_call_argument_snippets := false
                snippet_cap := some () } }

/-- Fixture: a context whose configuration disables parenthesis
insertion (first suppression condition). -/
def ctx_no_parens : CompletionContext :=
  { config := { add_call_parenthesis := false
                add_call_argument_snippets := true
                snippet_cap := some () } }

/-- Fixture: the display type `i32`. -/
def ty_i32 : HirType := { display := "i32", is_unknown := false, is_fn := false }

/-- Fixture: an unresolved (unknown) type. -/
def ty_unknown : HirType :=
  { display := "\x7bunknown\x7d", is_unknown := true, is_fn := false }

/-- Fixture: a tuple enum variant with one `i32` field. -/
def variant_tuple_i32 : EnumVariantDef :=
  { name := "V"
    fields := [{ name := "0", signature_ty := ty_i32, docs := none,
                 is_deprecated := false }]
    kind := StructKind.Tuple
    docs := none
    is_deprecated := false }

/-- Fixture: a record enum variant with fields `x: i32, y: i32`. -/
def variant_record_xy : EnumVariantDef :=
  { name := "Foo"
    fields := [{ name := "x", signature_ty := ty_i32, docs := none,
                 is_deprecated := false },
               { name := "y", signature_ty := ty_i32, docs := none,
                 is_deprecated := false }]
    kind := StructKind.Record
    docs := none
    is_deprecated := false }

/-- Fixture: a non-proc macro with no documentation. -/
def mac_no_docs : MacroDef :=
  { is_proc_macro' := false
    label_from_source := "macro_rules! foo"
    docs := none
    is_deprecated := false }

/-- Fixture: a two-parameter function `with_args(x: i32, y: String)`. -/
def func_with_args : HirFunction :=
  { name := "with_args"
    has_self_param := false
    docs := none
    is_deprecated := false
    signature :=
      { parameter_names := ["x", "y"]
        has_self_param := false
        display := "fn with_args(x: i32, y: String)" } }

/-! ## Helper lemmas -/

/-- When one suppression condition holds, `add_call_parens` is the
identity on the builder. -/
theorem add_call_parens_of_suppressed (ctx : CompletionContext)
    (name : String) (params : Params) (b : Builder)
    (h : call_parens_suppressed ctx = true) :
    b.add_call_parens ctx name params = b := by
  rcases hc : ctx.config.snippet_cap with _ | u
  · unfold Builder.add_call_parens
    rw [hc]
    split_ifs <;> rfl
  · unfold Builder.add_call_parens
    rw [hc]
    split_ifs with h1 h2 h3 h4
    all_goals
      first
      | rfl
      | (exfalso
         unfold call_parens_suppressed at h
         rw [hc] at h
         simp_all)

/-- `call_parens_suppressed ctx = false` unpacked into the five facts
the synthesis path of `add_call_parens` relies on. -/
theorem call_parens_not_suppressed_parts (ctx : CompletionContext)
    (h : call_parens_suppressed ctx = false) :
    ctx.config.add_call_parenthesis = true ∧
    ctx.use_item_syntax'.isSome = false ∧ ctx.is_call = false ∧
    (match ctx.expected_type with
     | some ty => ty.is_fn
     | none => false) = false ∧
    ctx.config.snippet_cap = some () := by
  unfold call_parens_suppressed at h
  simp only [Bool.or_eq_false_iff] at h
  obtain ⟨⟨⟨hp, hu1, hu2⟩, hf⟩, hc⟩ := h
  simp only [Bool.not_eq_eq_eq_not, Bool.not_false] at hp
  refine ⟨hp, hu1, hu2, hf, ?_⟩
  rcases hcs : ctx.config.snippet_cap with _ | u
  · rw [hcs] at hc
    simp at hc
  · cases u
    rfl

/-- When no suppression condition holds, `add_call_parens` rewrites
label, lookup and insertion text as the synthesis step prescribes. -/
theorem add_call_parens_not_suppressed (ctx : CompletionContext)
    (name : String) (params : Params) (b : Builder)
    (h : call_parens_suppressed ctx = false) :
    b.add_call_parens ctx name params =
      (if params.is_empty then
        { b with lookup := some name, label := name ++ "()",
                 insert := some (InsertText.snippet (name ++ "()$0")) }
       else
        { b with trigger_call_info := true, lookup := some name,
                 label := name ++ "(…)",
                 insert := some (InsertText.snippet
                   (match ctx.config.add_call_argument_snippets, params with
                    | true, Params.Named ps =>
                      name ++ "(" ++ String.intercalate ", "
                        (ps.enum.map
                          (fun ip => param_placeholder (ip.1 + 1) ip.2))
                        ++ ")$0"
                    | _, _ => name ++ "($0)")) }) := by
  obtain ⟨h1, h2, h3, h4, h5⟩ := call_parens_not_suppressed_parts ctx h
  unfold Builder.add_call_parens
  rw [h1, h2, h3, h4, h5]
  by_cases hp : params.is_empty <;> simp [hp]

/-- `add_call_parens` never touches the score field. -/
theorem add_call_parens_score (ctx : CompletionContext) (name : String)
    (params : Params) (b : Builder) :
    (b.add_call_parens ctx name params).score = b.score := by
  rcases h : call_parens_suppressed ctx with _ | _
  · rw [add_call_parens_not_suppressed ctx name params b h]
    by_cases hp : params.is_empty <;> simp [hp]
  · rw [add_call_parens_of_suppressed ctx name params b h]

/-- The comparison step of the scorer, the source's spelling (inequality
first, then name equality) against the spec's spelling (equality first,
with the operands in the spec's order). -/
theorem score_branch (an at' : String) (ty : HirType) (name : String) :
    (if at' ≠ ty.display then none
     else if an = name then some CompletionScore.TypeAndNameMatch
     else some CompletionScore.TypeMatch) =
      (if ty.display = at' then
        (if name = an then some CompletionScore.TypeAndNameMatch
         else some CompletionScore.TypeMatch)
       else none) := by
  by_cases he : at' = ty.display
  · subst he
    by_cases hn : an = name
    · subst hn
      simp
    · simp [hn, Ne.symm hn]
  · simp [he, Ne.symm he]

/-! ## Claim theorems -/

/-- C1: `compute_score` determines the active expectation by the ordered
two-branch check (record-field initializer first, else active call
parameter, else absent) and then scores by display-string comparison:
absent on differing display strings, `TypeAndNameMatch` on equal strings
and equal names, `TypeMatch` on equal strings and differing names. -/
theorem compute_score_matches_claim (ctx : CompletionContext)
    (ty : HirType) (name : String) :
    compute_score ctx ty name = compute_score_claim ctx ty name := by
  unfold compute_score compute_score_claim active_expectation_claim
  rcases hs : ctx.record_field_syntax' with _ | site
  · rcases ha : ctx.active_parameter with _ | ap
    · rfl
    · exact score_branch ap.name ap.ty ty name
  · rcases hr : site.resolved with _ | f
    · simp [hr]
    · simp only [hr, Option.map_some']
      exact score_branch f.name f.signature_ty.display ty name

/-- C4: the call-parenthesis inserter returns the builder unchanged
exactly when one of the four suppression conditions holds —
configuration off; use-item or already-typed call site; function-typed
expectation; no snippet capability — independently of the parameter
count (the right-hand side of the equivalence never reads `params`). -/
theorem add_call_parens_suppression_iff (ctx : CompletionContext)
    (name : String) (params : Params) (b : Builder) (h : b.insert = none) :
    b.add_call_parens ctx name params = b ↔
      call_parens_suppressed ctx = true := by
  constructor
  · intro heq
    rcases hs : call_parens_suppressed ctx with _ | _
    · exfalso
      have hchar := add_call_parens_not_suppressed ctx name params b hs
      rw [heq] at hchar
      by_cases hp : params.is_empty
      · rw [if_pos hp] at hchar
        have hins := congrArg Builder.insert hchar
        rw [h] at hins
        exact Option.noConfusion hins
      · rw [if_neg hp] at hchar
        have hins := congrArg Builder.insert hchar
        rw [h] at hins
        exact Option.noConfusion hins
    · rfl
  · intro hs
    exact add_call_parens_of_suppressed ctx name params b hs

/-- Witness for C4: with parenthesis insertion disabled by configuration
the builder comes back unchanged, at a concrete input. -/
theorem add_call_parens_suppression_iff_witness :
    Builder.add_call_parens { label := "f" } ctx_no_parens "f"
      (Params.Named ["x"]) = { label := "f" } :=
  (add_call_parens_suppression_iff ctx_no_parens "f" (Params.Named ["x"])
    { label := "f" } rfl).mpr (by decide)

/-- C5: the synthesis step when not suppressed — empty parameter list
gives label `name()` and snippet `name()$0`; a non-empty list gives
label `name(…)`, sets `trigger_call_info`, and the snippet carries one
ordered placeholder per parameter (joined by `", "`) when argument
snippets are enabled and the parameters are named, else `name($0)`. -/
theorem add_call_parens_synthesis (ctx : CompletionContext) (name : String)
    (params : Params) (b : Builder)
    (h : call_parens_suppressed ctx = false) :
    (params.len = 0 →
      (b.add_call_parens ctx name params).label = name ++ "()" ∧
      (b.add_call_parens ctx name params).insert =
        some (InsertText.snippet (name ++ "()$0")) ∧
      (b.add_call_parens ctx name params).trigger_call_info =
        b.trigger_call_info) ∧
    (params.len ≠ 0 →
      (b.add_call_parens ctx name params).label = name ++ "(…)" ∧
      (b.add_call_parens ctx name params).trigger_call_info = true ∧
      (∀ ps, ctx.config.add_call_argument_snippets = true →
        params = Params.Named ps →
        (b.add_call_parens ctx name params).insert =
          some (InsertText.snippet (name ++ "(" ++
            String.intercalate ", "
              (ps.enum.map (fun ip => param_placeholder (ip.1 + 1) ip.2))
            ++ ")$0"))) ∧
      ((ctx.config.add_call_argument_snippets = false ∨
          ∃ n, params = Params.Anonymous n) →
        (b.add_call_parens ctx name params).insert =
          some (InsertText.snippet (name ++ "($0)")))) := by
  rw [add_call_parens_not_suppressed ctx name params b h]
  constructor
  · intro hlen
    have hp : params.is_empty = true := by
      simp [Params.is_empty, hlen]
    rw [if_pos hp]
    exact ⟨rfl, rfl, rfl⟩
  · intro hlen
    have hp : ¬(params.is_empty = true) := by
      simp [Params.is_empty, hlen]
    rw [if_neg hp]
    refine ⟨rfl, rfl, ?_, ?_⟩
    · intro ps hsnip hnamed
      subst hnamed
      rw [hsnip]
    · intro hcase
      rcases hcase with hoff | ⟨n, hanon⟩
      · rcases params with ps | n <;> rw [hoff]
      · subst hanon
        rcases hsnip : ctx.config.add_call_argument_snippets with _ | _ <;>
          rfl

/-- Witness for C5: the spec's end-to-end scenario — completing
`with_args(x: i32, y: String)` with argument snippets enabled inserts
`with_args(${1:x}, ${2:y})$0`. -/
theorem add_call_parens_synthesis_witness :
    (Builder.add_call_parens { label := "with_args" } ctx_args_on
        "with_args" (Params.Named ["x", "y"])).insert =
      some (InsertText.snippet "with_args($\x7b1:x\x7d, $\x7b2:y\x7d)$0") := by
  have hth := add_call_parens_synthesis ctx_args_on "with_args"
    (Params.Named ["x", "y"]) { label := "with_args" } (by decide)
  have hins := (hth.2 (by decide)).2.2.1 ["x", "y"] (by decide) rfl
  rw [hins]
  rfl

/-- C10: when call syntax is added, the lookup string is set to exactly
the given (unparenthesised) name while the label gains `()` or `(…)`;
when suppressed the builder — label, lookup and insertion text
included — is untouched. -/
theorem add_call_parens_lookup_spec (ctx : CompletionContext)
    (name : String) (params : Params) (b : Builder) :
    (call_parens_suppressed ctx = false →
      (b.add_call_parens ctx name params).lookup = some name ∧
      ((b.add_call_parens ctx name params).label = name ++ "()" ∨
       (b.add_call_parens ctx name params).label = name ++ "(…)")) ∧
    (call_parens_suppressed ctx = true →
      b.add_call_parens ctx name params = b) := by
  constructor
  · intro hs
    rw [add_call_parens_not_suppressed ctx name params b hs]
    by_cases hp : params.is_empty
    · rw [if_pos hp]
      exact ⟨rfl, Or.inl rfl⟩
    · rw [if_neg hp]
      exact ⟨rfl, Or.inr rfl⟩
  · intro hs
    exact add_call_parens_of_suppressed ctx name params b hs

/-- Witness for C10 at a concrete input: the lookup of a rendered
two-argument candidate is the plain name. -/
theorem add_call_parens_lookup_spec_witness :
    (Builder.add_call_parens { label := "frobnicate" } ctx_args_on
      "frobnicate" (Params.Anonymous 2)).lookup = some "frobnicate" :=
  ((add_call_parens_lookup_spec ctx_args_on "frobnicate"
    (Params.Anonymous 2) { label := "frobnicate" }).1 (by decide)).1

/-- C2 counterexample: on empty documentation all three vote buckets
are zero and the guesser does not return the curly-brace style. -/
theorem guess_macro_braces_empty_not_curly :
    ¬(guess_macro_braces "m" "" = (" \x7b", "\x7d")) := by decide

/-- C2 (amended): with an all-zero vote tally — in particular on empty
documentation — the guesser returns the round-parenthesis style, the
last of the tie-break order curly → square → round. -/
theorem guess_macro_braces_all_zero_round (name docs : String)
    (h : macro_brace_votes name docs = (0, 0, 0)) :
    guess_macro_braces name docs = ("(", ")") := by
  unfold guess_macro_braces
  rw [h]
  rfl

/-- Witness for the amended C2: empty documentation tallies zero votes
and yields round parentheses. -/
theorem guess_macro_braces_all_zero_round_witness :
    guess_macro_braces "m" "" = ("(", ")") :=
  guess_macro_braces_all_zero_round "m" "" (by decide)

/-- The scanning loop's fold is the per-bucket occurrence count: folding
the vote step over an index list starting from `(a, b, c)` adds the
count of indices voting for each bucket. -/
theorem vote_foldl_eq_countP (f : Nat → Option Nat) (l : List Nat)
    (a b c : Nat) :
    l.foldl (fun votes idx =>
      match f idx with
      | some 0 => (votes.1 + 1, votes.2.1, votes.2.2)
      | some 1 => (votes.1, votes.2.1 + 1, votes.2.2)
      | some 2 => (votes.1, votes.2.1, votes.2.2 + 1)
      | _ => votes) (a, b, c) =
    (a + l.countP (fun i => f i == some 0),
     b + l.countP (fun i => f i == some 1),
     c + l.countP (fun i => f i == some 2)) := by
  induction l generalizing a b c with
  | nil => simp
  | cons x xs ih =>
    rw [List.foldl_cons, List.countP_cons, List.countP_cons,
      List.countP_cons]
    rcases hfx : f x with _ | n
    · simp only [hfx]
      rw [ih]
      simp [hfx]
    · rcases n with _ | _ | _ | m <;>
        · simp only [hfx]
          rw [ih]
          simp [hfx, Prod.ext_iff]
          try omega

/-- The code's tally equals the claim-side per-bucket counts. -/
theorem macro_brace_votes_eq_claim (macro_name docs : String) :
    macro_brace_votes macro_name docs =
      macro_brace_votes_claim macro_name docs := by
  unfold macro_brace_votes macro_brace_votes_claim
  rw [vote_foldl_eq_countP]
  simp

/-- The source's `max_by_key` selection over the three vote/brace pairs
equals the claim-side selection rule. -/
theorem select_eq_claim (v : Nat × Nat × Nat) :
    (match max_by_key_last
        [(v.1, (" \x7b", "\x7d")), (v.2.1, ("[", "]")),
         (v.2.2, ("(", ")"))] with
     | some picked => picked.2
     | none => ("(", ")")) = select_brace_style_claim v := by
  obtain ⟨a, b, c⟩ := v
  unfold max_by_key_last select_brace_style_claim
  simp only [List.foldl_cons, List.foldl_nil]
  by_cases h1 : a ≤ b <;> by_cases h2 : b ≤ c <;> by_cases h3 : a ≤ c <;>
    simp [h1, h2, h3] <;> omega

/-- C6: `guess_macro_braces` returns exactly the claim-side selection —
highest vote count with ties resolved towards the later style in the
order curly → square → round, a leading space on the curly open token —
applied to the claim-side tally of one vote per accepted occurrence
(followed by `!`, not preceded by `_` or an ASCII-alphanumeric
character, bucketed by the first non-whitespace character after the
`!`). -/
theorem guess_macro_braces_matches_claim (macro_name docs : String) :
    guess_macro_braces macro_name docs =
      select_brace_style_claim (macro_brace_votes_claim macro_name docs) := by
  have h := macro_brace_votes_eq_claim macro_name docs
  unfold guess_macro_braces
  rw [h]
  exact select_eq_claim _

/-- C3 counterexample: in a context where call-parenthesis insertion is
active, a fully qualified tuple variant does not keep the path as its
label (it becomes `E::V(…)`) nor the unqualified name as its lookup
(it becomes the qualified name). -/
theorem qualified_tuple_variant_rewritten :
    ¬((add_qualified_enum_variant ctx_args_on variant_tuple_i32
          "E::V").label = "E::V" ∧
      (add_qualified_enum_variant ctx_args_on variant_tuple_i32
          "E::V").lookup = some "V") := by decide

/-- C3 (amended): the qualified candidate's label is the path-qualified
name and its lookup the unqualified name (and an unqualified candidate's
label is the unqualified name, with no lookup) for unit and record
variants always, and for tuple variants whenever call-parenthesis
insertion is suppressed; an active insertion afterwards rewrites a tuple
variant's label and lookup. -/
theorem add_enum_variant_impl_label_lookup (ctx : CompletionContext)
    (variant : EnumVariantDef) (local_name : Option String)
    (path : Option String)
    (h : variant.kind ≠ StructKind.Tuple ∨
      call_parens_suppressed ctx = true) :
    (add_enum_variant_impl ctx variant local_name path).label =
        path.getD (local_name.getD variant.name) ∧
    (add_enum_variant_impl ctx variant local_name path).lookup =
      (if path.isSome then some (local_name.getD variant.name)
       else none) := by
  unfold add_enum_variant_impl
  by_cases hk : variant.kind = StructKind.Tuple
  · have hs : call_parens_suppressed ctx = true := by
      rcases h with hk' | hs
      · exact absurd hk hk'
      · exact hs
    rw [if_pos hk, add_call_parens_of_suppressed ctx _ _ _ hs]
    rcases path with _ | p
    · exact ⟨rfl, rfl⟩
    · exact ⟨rfl, rfl⟩
  · rw [if_neg hk]
    rcases path with _ | p
    · exact ⟨rfl, rfl⟩
    · exact ⟨rfl, rfl⟩

/-- Witness for the amended C3: a qualified record variant keeps the
path as label and the short name as lookup even with call-parenthesis
insertion active. -/
theorem add_enum_variant_impl_label_lookup_witness :
    (add_enum_variant_impl ctx_args_on variant_record_xy none
        (some "Foo::Foo")).label = "Foo::Foo" ∧
    (add_enum_variant_impl ctx_args_on variant_record_xy none
        (some "Foo::Foo")).lookup = some "Foo" := by
  simpa using add_enum_variant_impl_label_lookup ctx_args_on
    variant_record_xy none (some "Foo::Foo") (Or.inl (by decide))

/-- C7 counterexample: with snippet capability and a bang needed, the
emitted macro item's label is not `name!` — it is rebuilt with the
guessed braces (`foo!(…)` for a docless macro). -/
theorem add_macro_label_not_bare_bang :
    ¬((add_macro' ctx_args_on (some "foo") mac_no_docs).map Builder.label =
      some "foo!") := by decide

/-- C7 (amended): a proc-macro or nameless candidate emits nothing;
otherwise the item exists, and — when the site already supplies the
invocation marker — the label is `name!` with bare-name insertion; with
a bang needed and no snippet capability the label is `name!` and the
insertion `name!`; with a bang needed and snippet capability the
insertion is `name!` + open + `$0` + close with braces guessed from the
macro's own documentation, and the label is `name!` + open + `…` +
close (not the bare `name!` the original claim stated). -/
theorem add_macro_spec (ctx : CompletionContext) (name : String)
    (mac : MacroDef) :
    add_macro' ctx none mac = none ∧
    (mac.is_proc_macro' = true → add_macro' ctx (some name) mac = none) ∧
    (mac.is_proc_macro' = false →
      (add_macro' ctx (some name) mac).isSome = true ∧
      ((ctx.use_item_syntax'.isNone && !ctx.is_macro_call) = false →
        (add_macro' ctx (some name) mac).map Builder.label =
          some (name ++ "!") ∧
        (add_macro' ctx (some name) mac).map Builder.insert =
          some (some (InsertText.plainText name))) ∧
      ((ctx.use_item_syntax'.isNone && !ctx.is_macro_call) = true →
        ctx.config.snippet_cap = none →
        (add_macro' ctx (some name) mac).map Builder.label =
          some (name ++ "!") ∧
        (add_macro' ctx (some name) mac).map Builder.insert =
          some (some (InsertText.plainText (name ++ "!")))) ∧
      ((ctx.use_item_syntax'.isNone && !ctx.is_macro_call) = true →
        ctx.config.snippet_cap.isSome = true →
        (add_macro' ctx (some name) mac).map Builder.label =
          some (name ++ "!" ++
            (guess_macro_braces name (mac.docs.getD "")).1 ++ "…" ++
            (guess_macro_braces name (mac.docs.getD "")).2) ∧
        (add_macro' ctx (some name) mac).map Builder.insert =
          some (some (InsertText.snippet (name ++ "!" ++
            (guess_macro_braces name (mac.docs.getD "")).1 ++ "$0" ++
            (guess_macro_braces name (mac.docs.getD "")).2))))) := by
  refine ⟨?_, ?_, ?_⟩
  · rcases hpm : mac.is_proc_macro' with _ | _ <;> simp [add_macro', hpm]
  · intro hpm
    simp [add_macro', hpm]
  · intro hpm
    refine ⟨?_, ?_, ?_, ?_⟩
    · rcases hcap : ctx.config.snippet_cap with _ | u <;>
        simp [add_macro', hpm, hcap]
    · intro hnb
      rcases hcap : ctx.config.snippet_cap with _ | u <;>
        simp [add_macro', hpm, hnb, hcap]
    · intro hnb hcap
      simp [add_macro', hpm, hnb, hcap]
    · intro hnb hcap
      rcases hc : ctx.config.snippet_cap with _ | u
      · rw [hc] at hcap
        exact absurd hcap (by simp)
      · simp [add_macro', hpm, hnb, hc]

/-- Witness for the amended C7: the docless macro `foo` gets insertion
`foo!($0)` (round braces from the all-zero tally) and label `foo!(…)`. -/
theorem add_macro_spec_witness :
    (add_macro' ctx_args_on (some "foo") mac_no_docs).map Builder.insert =
      some (some (InsertText.snippet "foo!($0)")) := by
  have h := ((add_macro_spec ctx_args_on "foo" mac_no_docs).2.2
    rfl).2.2.2 (by decide) (by decide)
  rw [h.2]
  rfl

/-- `dropWhile` is idempotent. -/
theorem dropWhile_dropWhile_eq (p : Char → Bool) (l : List Char) :
    (l.dropWhile p).dropWhile p = l.dropWhile p := by
  induction l with
  | nil => rfl
  | cons x xs ih =>
    by_cases hx : p x
    · simp [List.dropWhile_cons, hx, ih]
    · simp [List.dropWhile_cons, hx]

/-- Stripping leading underscores twice is the same as stripping once. -/
theorem trim_start_underscores_idem (s : String) :
    trim_start_underscores (trim_start_underscores s) =
      trim_start_underscores s := by
  have hmk : ∀ l : List Char, (String.mk l).toList = l := fun l => rfl
  unfold trim_start_underscores
  rw [hmk, dropWhile_dropWhile_eq]

/-- Composition form of the idempotence, for `List.map` rewriting. -/
theorem trim_start_underscores_comp :
    trim_start_underscores ∘ trim_start_underscores =
      trim_start_underscores :=
  funext trim_start_underscores_idem

/-- A builder with no lookup either keeps none or gets exactly the given
name from `add_call_parens`. -/
theorem add_call_parens_lookup_none (ctx : CompletionContext)
    (name : String) (params : Params) (b : Builder)
    (hb : b.lookup = none) :
    (b.add_call_parens ctx name params).lookup = none ∨
    (b.add_call_parens ctx name params).lookup = some name := by
  rcases h : call_parens_suppressed ctx with _ | _
  · right
    rw [add_call_parens_not_suppressed ctx name params b h]
    by_cases hp : params.is_empty
    · rw [if_pos hp]
    · rw [if_neg hp]
  · left
    rw [add_call_parens_of_suppressed ctx name params b h]
    exact hb

/-- C8: the rendered function item only ever sees the receiver-excluded,
underscore-stripped parameter names — replacing the signature's names by
that list (and clearing the receiver flag) yields the very same item —
and the original names play no role in scoring or matching: the item's
score is always absent and its lookup is either unset or the plain
function name. -/
theorem add_function_stripped_params (ctx : CompletionContext)
    (func : HirFunction) (local_name : Option String) :
    add_function ctx func local_name =
      add_function ctx
        { func with signature :=
            { parameter_names := stripped_param_names_claim func.signature
              has_self_param := false
              display := func.signature.display } }
        local_name ∧
    (add_function ctx func local_name).score = none ∧
    ((add_function ctx func local_name).lookup = none ∨
     (add_function ctx func local_name).lookup =
       some (local_name.getD func.name)) := by
  refine ⟨?_, ?_, ?_⟩
  · rcases hsp : func.signature.has_self_param with _ | _ <;>
      simp [add_function, stripped_param_names_claim, hsp,
        trim_start_underscores_comp]
  · simp only [add_function]
    exact (add_call_parens_score ctx _ _ _).trans rfl
  · simp only [add_function]
    exact add_call_parens_lookup_none ctx _ _ _ rfl

/-- C9: a local binding whose type is unknown is emitted with no detail
string, while a field candidate always carries a detail equal to the
type's display text — including for an unknown type, whose display text
(the explicit unknown-type marker produced by the display collaborator)
is surfaced rather than omitted. -/
theorem unknown_type_detail (ctx : CompletionContext) (local_name : String)
    (ty : HirType) (field : HirField) (fty : HirType) :
    (ty.is_unknown = true →
      (add_resolution ctx local_name (ScopeDef.Local ty)).map
        Builder.detail = some none) ∧
    (add_field ctx field fty).detail = some fty.display := by
  constructor
  · intro h
    rcases hsc : compute_score ctx ty local_name with _ | sc <;>
      simp [add_resolution, h, hsc] <;>
      split <;>
      first
        | rfl
        | (rcases ctx.config.snippet_cap with _ | u <;> rfl)
  · rcases hsc : compute_score ctx fty field.name with _ | sc <;>
      simp [add_field, hsc]

/-- Witness for C9: a concrete unknown-typed local is emitted without a
detail string. -/
theorem unknown_type_detail_witness :
    (add_resolution ctx_args_on "x" (ScopeDef.Local ty_unknown)).map
      Builder.detail = some none :=
  (unknown_type_detail ctx_args_on "x" ty_unknown
    ⟨"f", ty_i32, none, false⟩ ty_i32).1 rfl
